import Mathlib

/-!
Shallow embedding of the initiative tracker in `src/main.rs` (~526 lines of
Rust): the roster loader `grab_initiative`, the setup state machine
(`SetupState`, `handle_input`, `handle_enter`, `add_entry`, `remove_entry`,
`view_initiative_order`), and the combat state machine
(`Combat`, `handle_combat_input`).

Rendering functions, the terminal, and the event source are out of scope;
key events are modelled by the abstract `KeyCode` intents the handlers
dispatch on.  Handlers that mutate state through `&mut` and always return
`Ok(bool)` are embedded as pure functions returning the new state paired
with the exit flag.  The `i8` round counter of `Combat` is embedded as an
integer wrapped into the two's-complement range by `wrap8` at every update.
-/

namespace Rusist

/-- One participant in the encounter: Rust struct `Combatant` with a
`String` name and an `i32` initiative value. -/
structure Combatant where
  name : String
  initiative : Int
deriving DecidableEq

/-- Rust enum `InputField`: which form field of the AddEntry screen is
active. -/
inductive InputField where
  | Name
  | Initiative
deriving DecidableEq

/-- Rust enum `SetupMenuState`: the four screens of the setup state
machine. -/
inductive SetupMenuState where
  | PopulateEntries
  | AddEntry
  | RemoveEntry
  | ViewOrder
deriving DecidableEq

/-- Abstract key intents: the `crossterm::event::KeyCode` values the
handlers dispatch on (`Other` stands for every key both handlers ignore). -/
inductive KeyCode where
  | Up
  | Down
  | Enter
  | Esc
  | Tab
  | Backspace
  | Char (c : Char)
  | Other
deriving DecidableEq

/-- Rust struct `SetupState`: the single mutable state of the setup state
machine. -/
structure SetupState where
  combatants : List Combatant
  menu : SetupMenuState
  selected : Nat
  max_size : Nat
  name_input : String
  initiative_input : String
  active_field : InputField
deriving DecidableEq

/-- Rust struct `Combat`: the combat state machine's state.  In the source
`round` has type `i8`; here it is an integer kept in the `i8` range by
`wrap8` at every update. -/
structure Combat where
  combatants : List Combatant
  current_turn : Nat
  round : Int
deriving DecidableEq

/-- Reinterpretation of an integer as a Rust `i8` two's-complement value:
reduce modulo 2^8 into the representable range [-128, 127]. -/
def wrap8 (x : Int) : Int := (x + 128) % 256 - 128

/-- Value of a run of ASCII digit characters, `none` unless the list is
non-empty and consists of digits only (the digit loop inside Rust's integer
`from_str`). -/
def digits_to_nat (cs : List Char) : Option Nat :=
  if cs.isEmpty then none
  else if cs.all Char.isDigit then
    some (cs.foldl (fun a c => a * 10 + (c.toNat - 48)) 0)
  else none

/-- Embedding of Rust `str::parse::<i32>`: an optional leading `+` or `-`
sign, a non-empty run of ASCII digits, and a result within the `i32` range;
every other input fails. -/
def parse_i32 (s : String) : Option Int :=
  match s.toList with
  | '+' :: rest =>
    (digits_to_nat rest).bind fun n =>
      if n ≤ 2147483647 then some (n : Int) else none
  | '-' :: rest =>
    (digits_to_nat rest).bind fun n =>
      if n ≤ 2147483648 then some (-(n : Int)) else none
  | cs =>
    (digits_to_nat cs).bind fun n =>
      if n ≤ 2147483647 then some (n : Int) else none

/-- Embedding of Rust `str::split` with the two-character pattern `", "`:
scan left to right, splitting at each non-overlapping occurrence of
comma-space. -/
def split_comma_space : List Char → List (List Char)
  | [] => [[]]
  | [c] => [[c]]
  | ',' :: ' ' :: rest => [] :: split_comma_space rest
  | c :: rest =>
    match split_comma_space rest with
    | f :: fs => (c :: f) :: fs
    | [] => [[c]]

/-- Field list of one roster record: the Rust local
`let splices: Vec<&str> = line.split(", ").collect()`. -/
def splices (line : String) : List String :=
  (split_comma_space line.toList).map List.asString

/-- Error outcomes of the loader and the orchestrator; in the Rust source
they are `eyre!` values distinguished only by message text. -/
inductive LoadError where
  | lineFormatError
  | integerParseError
  | emptyRosterError
deriving DecidableEq

/-- The record loop of `grab_initiative` (main.rs lines 81-99): fold over
the successfully read lines, split each on comma-space, reject a record
without exactly two fields with the line-format error, parse field two as
`i32` (rejecting failures with the integer-parse error), and push
combatants in file order. -/
def grab_lines : List String → List Combatant → Except LoadError (List Combatant)
  | [], file_combatants => .ok file_combatants
  | line :: rest, file_combatants =>
    match splices line with
    | [fighter_name, initiative_str] =>
      match parse_i32 initiative_str with
      | some initiative_roll =>
        grab_lines rest (file_combatants ++ [⟨fighter_name, initiative_roll⟩])
      | none => .error .integerParseError
    | _ => .error .lineFormatError

/-- Embedding of `lines.map_while(Result::ok)`: the prefix of successfully
read lines, stopping silently at the first line whose read failed. -/
def read_ok_lines : List (Option String) → List String
  | [] => []
  | some line :: rest => line :: read_ok_lines rest
  | none :: _ => []

/-- Embedding of `grab_initiative` (main.rs lines 77-102).  The roster
source is `none` when `read_lines` (the file open) fails, otherwise the
list of per-line read results with `none` marking a line whose read failed.
On open failure the `if let Ok(lines)` guard is skipped and the function
returns `Ok` with the still-empty vector. -/
def grab_initiative (src : Option (List (Option String))) :
    Except LoadError (List Combatant) :=
  match src with
  | none => .ok []
  | some lines => grab_lines (read_ok_lines lines) []

/-- Embedding of
`combatants.sort_by(|a, b| b.initiative.cmp(&a.initiative))`: Rust's
stable `sort_by`, here a stable merge sort, descending by initiative.  Used
both by the orchestrator (`run`, line 434) and by the ViewOrder screen
(`view_initiative_order`, line 287). -/
def sort_combatants (l : List Combatant) : List Combatant :=
  l.mergeSort fun a b => b.initiative ≤ a.initiative

/-- Embedding of `add_entry` (main.rs lines 255-273).  An empty name buffer
returns early with the state untouched; otherwise a combatant is pushed
when the initiative buffer parses as `i32`, and either way the form is
cleared and the machine goes back to the PopulateEntries menu. -/
def add_entry (state : SetupState) : SetupState × Bool :=
  if state.name_input.isEmpty then (state, false)
  else
    let state1 :=
      match parse_i32 state.initiative_input with
      | some initiative =>
        { state with
            combatants :=
              state.combatants ++ [Combatant.mk state.name_input initiative] }
      | none => state
    ({ state1 with
        name_input := "", initiative_input := "", active_field := .Name,
        menu := .PopulateEntries, selected := 0 }, false)

/-- Embedding of `remove_entry` (main.rs lines 275-284).  An out-of-bounds
selection returns early with the state untouched; otherwise the combatant
at `selected` is removed and the machine goes back to the PopulateEntries
menu. -/
def remove_entry (state : SetupState) : SetupState × Bool :=
  if state.combatants.length ≤ state.selected then (state, false)
  else
    ({ state with
        combatants := state.combatants.eraseIdx state.selected,
        menu := .PopulateEntries, selected := 0 }, false)

/-- Embedding of `view_initiative_order` (main.rs lines 286-291): sort the
roster descending by initiative and go back to the PopulateEntries menu. -/
def view_initiative_order (state : SetupState) : SetupState × Bool :=
  ({ state with
      combatants := sort_combatants state.combatants,
      menu := .PopulateEntries, selected := 0 }, false)

/-- Menu index constant `ADD_ENTRY` (main.rs line 17). -/
def ADD_ENTRY : Nat := 0

/-- Menu index constant `REMOVE_ENTRY` (main.rs line 18). -/
def REMOVE_ENTRY : Nat := 1

/-- Menu index constant `VIEW_ORDER` (main.rs line 19). -/
def VIEW_ORDER : Nat := 2

/-- Embedding of `handle_enter` (main.rs lines 326-353): dispatch of the
Confirm intent per screen.  On the PopulateEntries menu the selected row
picks the next screen, and any other row (index 3, Continue, or beyond)
exits setup. -/
def handle_enter (state : SetupState) : SetupState × Bool :=
  match state.menu with
  | .PopulateEntries =>
    if state.selected = ADD_ENTRY then
      ({ state with menu := .AddEntry, selected := 0 }, false)
    else if state.selected = REMOVE_ENTRY then
      ({ state with menu := .RemoveEntry, selected := 0 }, false)
    else if state.selected = VIEW_ORDER then
      ({ state with menu := .ViewOrder, selected := 0 }, false)
    else (state, true)
  | .AddEntry => add_entry state
  | .RemoveEntry => remove_entry state
  | .ViewOrder => view_initiative_order state

/-- Embedding of `handle_input` (main.rs lines 356-414): the setup state
machine's single step.  Returns the new state and the exit flag. -/
def handle_input (state : SetupState) (key : KeyCode) : SetupState × Bool :=
  match key with
  | .Up =>
    if 0 < state.selected then
      ({ state with selected := state.selected - 1 }, false)
    else (state, false)
  | .Down =>
    if state.selected < state.max_size then
      ({ state with selected := state.selected + 1 }, false)
    else (state, false)
  | .Enter => handle_enter state
  | .Esc =>
    match state.menu with
    | .PopulateEntries => (state, true)
    | _ => ({ state with menu := .PopulateEntries, selected := 0 }, false)
  | .Tab =>
    match state.menu with
    | .AddEntry =>
      ({ state with
          active_field :=
            match state.active_field with
            | .Name => .Initiative
            | .Initiative => .Name }, false)
    | _ => (state, false)
  | .Backspace =>
    match state.menu with
    | .AddEntry =>
      match state.active_field with
      | .Initiative =>
        ({ state with initiative_input := state.initiative_input.dropRight 1 }, false)
      | .Name =>
        ({ state with name_input := state.name_input.dropRight 1 }, false)
    | _ => (state, false)
  | .Char c =>
    match state.menu with
    | .AddEntry =>
      match state.active_field with
      | .Name => ({ state with name_input := state.name_input.push c }, false)
      | .Initiative =>
        if c.isDigit ∨ (c = '-' ∧ state.initiative_input.isEmpty) then
          ({ state with initiative_input := state.initiative_input.push c }, false)
        else (state, false)
    | _ => (state, false)
  | .Other => (state, false)

/-- Embedding of `handle_combat_input` (main.rs lines 451-475): the combat
state machine's single step.  Enter (Confirm) advances the turn modulo the
roster size and bumps the `i8` round on wraparound; Backspace (Backward)
steps one turn back, moving to the last slot of the previous round at turn
0; Esc exits. -/
def handle_combat_input (state : Combat) (key : KeyCode) : Combat × Bool :=
  match key with
  | .Enter =>
    let current_turn := (state.current_turn + 1) % state.combatants.length
    let round :=
      if current_turn = 0 then wrap8 (state.round + 1) else state.round
    ({ state with current_turn := current_turn, round := round }, false)
  | .Backspace =>
    if state.current_turn = 0 then
      ({ state with
          round := wrap8 (state.round - 1),
          current_turn := state.combatants.length - 1 }, false)
    else
      ({ state with current_turn := state.current_turn - 1 }, false)
  | .Esc => (state, true)
  | _ => (state, false)

/-- Iterated Confirm intents: issue Enter `k` times to the combat state
machine. -/
def confirmN : Nat → Combat → Combat
  | 0, state => state
  | k + 1, state => confirmN k (handle_combat_input state .Enter).1

/-- The roster-producing part of `run` (main.rs lines 416-436): load the
roster from the source, reject an empty result, then apply the initial
descending stable sort before combat begins. -/
def run_load (src : Option (List (Option String))) :
    Except LoadError (List Combatant) :=
  match grab_initiative src with
  | .error e => .error e
  | .ok combatants =>
    if combatants.isEmpty then .error .emptyRosterError
    else .ok (sort_combatants combatants)

/-- A record the loader accepts: exactly two comma-space fields whose
second field parses as `i32`. -/
def record_ok (line : String) : Bool :=
  match splices line with
  | [_, initiative_str] => (parse_i32 initiative_str).isSome
  | _ => false

/-- Specification-side description of the combatant a valid record denotes
(spec section 4.1 and section 8): field one verbatim as the name, field two
parsed as the initiative. -/
def record_combatant_spec (line : String) : Combatant :=
  match splices line with
  | [fighter_name, initiative_str] =>
    ⟨fighter_name, (parse_i32 initiative_str).getD 0⟩
  | _ => ⟨"", 0⟩

/-! ## Arithmetic facts about the `i8` wrap -/

theorem wrap8_eq_self {x : Int} (hlo : -128 ≤ x) (hhi : x ≤ 127) :
    wrap8 x = x := by
  unfold wrap8; omega

theorem wrap8_add_right (x y : Int) : wrap8 (wrap8 x + y) = wrap8 (x + y) := by
  unfold wrap8; omega

theorem wrap8_lb (x : Int) : -128 ≤ wrap8 x := by
  unfold wrap8; omega

theorem wrap8_ub (x : Int) : wrap8 x ≤ 127 := by
  unfold wrap8; omega

/-! ## C1: Confirm on AddEntry with an empty name -/

/-- C1: the claim as stated is false on the code.  At this concrete
`AddEntry` state with `name_input = ""` and `initiative_input = "10"`, the
Confirm intent does not return the machine to the `PopulateEntries` menu:
`add_entry` returns early and the menu stays `AddEntry`. -/
theorem c1_counterexample :
    (handle_input
        { combatants := [], menu := .AddEntry, selected := 0, max_size := 0, name_input := "", initiative_input := "10", active_field := .Name }
        KeyCode.Enter).1.menu ≠ SetupMenuState.PopulateEntries := by
  decide

/-- C1 (amended): in the `AddEntry` screen, a Confirm intent issued while
`name_input` is empty adds no combatant and leaves the entire setup state
unchanged — in particular the machine stays on the `AddEntry` screen
rather than returning to `PopulateEntries`. -/
theorem c1_theorem (s : SetupState) (hm : s.menu = SetupMenuState.AddEntry)
    (hn : s.name_input = "") :
    handle_input s KeyCode.Enter = (s, false) := by
  simp [handle_input, handle_enter, add_entry, hm, hn, String.isEmpty]

/-- Witness for C1 at a concrete state. -/
theorem c1_witness :
    handle_input
        { combatants := [], menu := .AddEntry, selected := 0, max_size := 0, name_input := "", initiative_input := "10", active_field := .Name }
        KeyCode.Enter
      = ({ combatants := [], menu := .AddEntry, selected := 0, max_size := 0, name_input := "", initiative_input := "10", active_field := .Name },
         false) :=
  c1_theorem _ rfl rfl

/-! ## C2: Confirm on RemoveEntry -/

/-- C2: the claim as stated is false on the code.  At this concrete
`RemoveEntry` state with `selected = 0` out of bounds for an empty roster,
the Confirm intent does not return the machine to the `PopulateEntries`
menu: `remove_entry` returns early and the menu stays `RemoveEntry`. -/
theorem c2_counterexample :
    (handle_input
        { combatants := [], menu := .RemoveEntry, selected := 0, max_size := 0, name_input := "", initiative_input := "", active_field := .Name }
        KeyCode.Enter).1.menu ≠ SetupMenuState.PopulateEntries := by
  decide

/-- C2 (amended): in the `RemoveEntry` screen, a Confirm intent removes the
combatant at index `selected` and returns to the `PopulateEntries` menu
when `selected < combatants.length`; when `selected` is out of bounds it
leaves the whole state (in particular the roster) unchanged and stays on
the `RemoveEntry` screen. -/
theorem c2_theorem (s : SetupState) (hm : s.menu = SetupMenuState.RemoveEntry) :
    (s.selected < s.combatants.length →
        handle_input s KeyCode.Enter =
          ({ s with combatants := s.combatants.eraseIdx s.selected, menu := SetupMenuState.PopulateEntries, selected := 0 },
           false))
  ∧ (s.combatants.length ≤ s.selected →
        handle_input s KeyCode.Enter = (s, false)) := by
  constructor
  · intro h
    simp [handle_input, handle_enter, remove_entry, hm, Nat.not_le.mpr h]
  · intro h
    simp [handle_input, handle_enter, remove_entry, hm, h]

/-- Witness for C2 at a concrete state: the in-bounds removal deletes the
selected row and goes back to the menu. -/
theorem c2_witness :
    handle_input
        { combatants := [⟨"A", 3⟩, ⟨"B", 5⟩], menu := .RemoveEntry, selected := 1, max_size := 2, name_input := "", initiative_input := "", active_field := .Name }
        KeyCode.Enter
      = ({ combatants := [⟨"A", 3⟩], menu := .PopulateEntries, selected := 0, max_size := 2, name_input := "", initiative_input := "", active_field := .Name }, false) :=
  ( c2_theorem _ rfl).1 (by decide)

/-! ## Combat state machine lemmas -/

theorem handle_combat_enter (s : Combat) :
    (handle_combat_input s KeyCode.Enter).1 =
      { s with
          current_turn := (s.current_turn + 1) % s.combatants.length,
          round := if (s.current_turn + 1) % s.combatants.length = 0
                   then wrap8 (s.round + 1) else s.round } := rfl

theorem confirmN_no_wrap (k : Nat) :
    ∀ (cs : List Combatant) (t : Nat) (r : Int), t + k < cs.length →
      confirmN k ⟨cs, t, r⟩ = ⟨cs, t + k, r⟩ := by
  induction k with
  | zero => intro cs t r _; rfl
  | succ k ih =>
    intro cs t r h
    have hmod : (t + 1) % cs.length = t + 1 := Nat.mod_eq_of_lt (by omega)
    have hstep : (handle_combat_input (⟨cs, t, r⟩ : Combat) KeyCode.Enter).1
        = ⟨cs, t + 1, r⟩ := by
      simp [handle_combat_input, hmod]
    show confirmN k (handle_combat_input (⟨cs, t, r⟩ : Combat) KeyCode.Enter).1
        = ⟨cs, t + (k + 1), r⟩
    rw [hstep, ih cs (t + 1) r (by omega)]
    congr 1
    omega

theorem confirmN_succ (k : Nat) (s : Combat) :
    confirmN (k + 1) s = (handle_combat_input (confirmN k s) KeyCode.Enter).1 := by
  induction k generalizing s with
  | zero => rfl
  | succ k ih =>
    have h1 : confirmN (k + 1 + 1) s
        = confirmN (k + 1) (handle_combat_input s KeyCode.Enter).1 := rfl
    rw [h1, ih]
    rfl

theorem confirmN_full_cycle (cs : List Combatant) (r : Int)
    (hn : 0 < cs.length) (hlo : -128 ≤ r) (hhi : r ≤ 126) :
    confirmN cs.length ⟨cs, 0, r⟩ = ⟨cs, 0, r + 1⟩ := by
  obtain ⟨n, hlen⟩ : ∃ m, cs.length = m + 1 := ⟨cs.length - 1, by omega⟩
  have h2 : confirmN n (⟨cs, 0, r⟩ : Combat) = ⟨cs, n, r⟩ := by
    simpa using confirmN_no_wrap n cs 0 r (by omega)
  have h3 : confirmN cs.length (⟨cs, 0, r⟩ : Combat)
      = (handle_combat_input (⟨cs, n, r⟩ : Combat) KeyCode.Enter).1 := by
    rw [hlen, confirmN_succ, h2]
  rw [h3]
  have hmod : (n + 1) % cs.length = 0 := by rw [hlen]; exact Nat.mod_self _
  simp [handle_combat_input, hmod]
  exact wrap8_eq_self (by omega) (by omega)

/-! ## C4: a full cycle of Confirm intents advances the round by one -/

/-- C4: the claim as stated is false on the code at `round = 127`: with a
one-combatant roster, a single Confirm from `current_turn = 0, round = 127`
wraps the `i8` round counter to `-128` rather than yielding `r + 1 = 128`. -/
theorem c4_counterexample :
    (confirmN 1 { combatants := [⟨"A", 1⟩], current_turn := 0, round := 127 }).round = -128
  ∧ (confirmN 1 { combatants := [⟨"A", 1⟩], current_turn := 0, round := 127 }).round ≠ 127 + 1 := by
  decide

/-- C4 (amended): for every roster size `n ≥ 1` and every starting round
value `r` with `-128 ≤ r ≤ 126`, issuing the Confirm intent `n` times from
`current_turn = 0, round = r` yields `current_turn = 0, round = r + 1`
(at `r = 127` the `i8` counter wraps to `-128` instead); and each Confirm
computes `current_turn = (current_turn + 1) mod n`, updating the round
(by an `i8`-wrapped increment) exactly when the new `current_turn` is 0. -/
theorem c4_theorem (c d : Combat) (hn : 0 < c.combatants.length)
    (ht : c.current_turn = 0) (hlo : -128 ≤ c.round) (hhi : c.round ≤ 126) :
    ((confirmN c.combatants.length c).current_turn = 0
      ∧ (confirmN c.combatants.length c).round = c.round + 1)
  ∧ ((handle_combat_input d KeyCode.Enter).1.current_turn
        = (d.current_turn + 1) % d.combatants.length
      ∧ (handle_combat_input d KeyCode.Enter).1.round
        = (if (d.current_turn + 1) % d.combatants.length = 0
           then wrap8 (d.round + 1) else d.round)) := by
  refine ⟨?_, by simp [handle_combat_input], by simp [handle_combat_input]⟩
  obtain ⟨cs, t, r⟩ := c
  simp only [] at hn ht hlo hhi
  subst ht
  have h := confirmN_full_cycle cs r hn hlo hhi
  show (confirmN cs.length ⟨cs, 0, r⟩).current_turn = 0
      ∧ (confirmN cs.length ⟨cs, 0, r⟩).round = r + 1
  rw [h]
  exact ⟨rfl, rfl⟩

/-- Witness for C4: a three-combatant roster cycled once from round 0, and
a single-step evaluation on a two-combatant roster. -/
theorem c4_witness :
    ((confirmN 3 { combatants := [⟨"A", 5⟩, ⟨"B", 3⟩, ⟨"C", 1⟩], current_turn := 0, round := 0 }).current_turn = 0
      ∧ (confirmN 3 { combatants := [⟨"A", 5⟩, ⟨"B", 3⟩, ⟨"C", 1⟩], current_turn := 0, round := 0 }).round = 0 + 1)
  ∧ ((handle_combat_input { combatants := [⟨"A", 5⟩, ⟨"B", 3⟩], current_turn := 0, round := 7 } KeyCode.Enter).1.current_turn
        = (0 + 1) % 2
      ∧ (handle_combat_input { combatants := [⟨"A", 5⟩, ⟨"B", 3⟩], current_turn := 0, round := 7 } KeyCode.Enter).1.round
        = (if (0 + 1) % 2 = 0 then wrap8 (7 + 1) else 7)) :=
  c4_theorem
    { combatants := [⟨"A", 5⟩, ⟨"B", 3⟩, ⟨"C", 1⟩], current_turn := 0, round := 0 }
    { combatants := [⟨"A", 5⟩, ⟨"B", 3⟩], current_turn := 0, round := 7 }
    (by decide) rfl (by decide) (by decide)

/-! ## C5: Backward is the exact inverse of Confirm -/

/-- C5: on every combat state over a non-empty roster whose `current_turn`
is a valid index and whose `i8` round is in range, a Confirm intent
followed by a Backward intent restores the state exactly, including at the
round boundary. -/
theorem c5_theorem (c : Combat) (hn : 0 < c.combatants.length)
    (ht : c.current_turn < c.combatants.length)
    (hlo : -128 ≤ c.round) (hhi : c.round ≤ 127) :
    (handle_combat_input (handle_combat_input c KeyCode.Enter).1
        KeyCode.Backspace).1 = c := by
  obtain ⟨cs, t, r⟩ := c
  simp only [] at hn ht hlo hhi
  by_cases h : t + 1 = cs.length
  · have hmod : (t + 1) % cs.length = 0 := by rw [h]; exact Nat.mod_self _
    have hstep : (handle_combat_input (⟨cs, t, r⟩ : Combat) KeyCode.Enter).1
        = ⟨cs, 0, wrap8 (r + 1)⟩ := by
      simp [handle_combat_input, hmod]
    rw [hstep]
    simp [handle_combat_input]
    refine ⟨by omega, ?_⟩
    have h1 : wrap8 (r + 1) - 1 = wrap8 (r + 1) + (-1) := by ring
    have h2 : r + 1 + (-1) = r := by ring
    rw [h1, wrap8_add_right, h2]
    exact wrap8_eq_self hlo hhi
  · have hmod : (t + 1) % cs.length = t + 1 := Nat.mod_eq_of_lt (by omega)
    have hstep : (handle_combat_input (⟨cs, t, r⟩ : Combat) KeyCode.Enter).1
        = ⟨cs, t + 1, r⟩ := by
      simp [handle_combat_input, hmod]
    rw [hstep]
    simp [handle_combat_input]

/-- Witness for C5 at the round boundary: two combatants, turn 1, round 0;
Confirm wraps to turn 0 round 1 and Backward restores turn 1 round 0. -/
theorem c5_witness :
    (handle_combat_input
        (handle_combat_input { combatants := [⟨"A", 5⟩, ⟨"B", 3⟩], current_turn := 1, round := 0 } KeyCode.Enter).1
        KeyCode.Backspace).1
      = { combatants := [⟨"A", 5⟩, ⟨"B", 3⟩], current_turn := 1, round := 0 } :=
  c5_theorem _ (by decide) (by decide) (by decide) (by decide)

/-! ## C6: the Backward intent, including the negative round -/

/-- C6: the claim as stated is false on the code at `round = -128`: a
Backward intent at `current_turn = 0` there wraps the `i8` round counter to
`127` rather than decrementing it to `-129`. -/
theorem c6_counterexample :
    (handle_combat_input { combatants := [⟨"A", 1⟩], current_turn := 0, round := -128 } KeyCode.Backspace).1.round = 127
  ∧ (handle_combat_input { combatants := [⟨"A", 1⟩], current_turn := 0, round := -128 } KeyCode.Backspace).1.round ≠ -128 - 1 := by
  decide

/-- C6 (amended): over a roster of size `n ≥ 1`, with the `i8` round in
range and above `-128`, the Backward intent at `current_turn = 0`
decrements `round` by 1 and sets `current_turn = n - 1` (at `round = -128`
the `i8` counter instead wraps to `127`), and at `current_turn > 0` it
decrements `current_turn` by 1 leaving `round` unchanged; in particular
from `current_turn = 0, round = 0` it yields `round = -1` — no floor at
zero. -/
theorem c6_theorem (c : Combat) (hn : 0 < c.combatants.length)
    (hlo : -128 < c.round) (hhi : c.round ≤ 127) :
    (c.current_turn = 0 →
        (handle_combat_input c KeyCode.Backspace).1.round = c.round - 1
        ∧ (handle_combat_input c KeyCode.Backspace).1.current_turn
            = c.combatants.length - 1)
  ∧ (0 < c.current_turn →
        (handle_combat_input c KeyCode.Backspace).1.current_turn
            = c.current_turn - 1
        ∧ (handle_combat_input c KeyCode.Backspace).1.round = c.round) := by
  obtain ⟨cs, t, r⟩ := c
  simp only [] at hn hlo hhi
  constructor
  · intro ht
    subst ht
    simp [handle_combat_input]
    exact wrap8_eq_self (by omega) (by omega)
  · intro ht
    have ht2 : 0 < t := ht
    have h : ¬ t = 0 := by omega
    simp [handle_combat_input, h]

/-- Witness for C6: Backward from turn 0, round 0 on a two-combatant roster
yields round `-1` and turn `1`. -/
theorem c6_witness :
    (handle_combat_input { combatants := [⟨"A", 1⟩, ⟨"B", 2⟩], current_turn := 0, round := 0 } KeyCode.Backspace).1.round = 0 - 1
  ∧ (handle_combat_input { combatants := [⟨"A", 1⟩, ⟨"B", 2⟩], current_turn := 0, round := 0 } KeyCode.Backspace).1.current_turn
      = 2 - 1 :=
  ( c6_theorem _ (by decide) (by decide) (by decide)).1 rfl

/-! ## C10: the round counter is an i8 -/

/-- C10: the `round` field of `Combat` is a Rust `i8`, embedded here as an
integer wrapped modulo 2^8 by `wrap8`: a Confirm that wraps the turn with
`round = 127` overflows to `-128`, a Backward at turn 0 with
`round = -128` overflows to `127`, and the `i8` increment and decrement
agree with plain `r + 1` and `r - 1` exactly while the result stays within
`[-128, 127]`. -/
theorem c10_theorem (c : Combat) (r : Int) (_hn : 0 < c.combatants.length) :
    ((c.current_turn + 1) % c.combatants.length = 0 → c.round = 127 →
        (handle_combat_input c KeyCode.Enter).1.round = -128)
  ∧ (c.current_turn = 0 → c.round = -128 →
        (handle_combat_input c KeyCode.Backspace).1.round = 127)
  ∧ (-128 ≤ r + 1 → r + 1 ≤ 127 → wrap8 (r + 1) = r + 1)
  ∧ (-128 ≤ r - 1 → r - 1 ≤ 127 → wrap8 (r - 1) = r - 1) := by
  refine ⟨?_, ?_, fun h1 h2 => wrap8_eq_self h1 h2,
          fun h1 h2 => wrap8_eq_self h1 h2⟩
  · intro hmod hr
    simp [handle_combat_input, hmod, hr]
    decide
  · intro ht hr
    simp [handle_combat_input, ht, hr]
    decide

/-- Witness for C10: both overflow directions on a one-combatant roster. -/
theorem c10_witness :
    (handle_combat_input { combatants := [⟨"A", 1⟩], current_turn := 0, round := 127 } KeyCode.Enter).1.round = -128
  ∧ (handle_combat_input { combatants := [⟨"A", 1⟩], current_turn := 0, round := -128 } KeyCode.Backspace).1.round = 127 :=
  ⟨ ( c10_theorem _ 0 (by decide)).1 (by decide) rfl,
   ( c10_theorem _ 0 (by decide)).2.1 rfl rfl⟩

/-! ## Loader lemmas -/

theorem grab_lines_nil (acc : List Combatant) :
    grab_lines [] acc = Except.ok acc := rfl

theorem grab_lines_cons (line : String) (rest : List String)
    (acc : List Combatant) :
    grab_lines (line :: rest) acc
      = match splices line with
        | [fighter_name, initiative_str] =>
          match parse_i32 initiative_str with
          | some initiative_roll =>
            grab_lines rest (acc ++ [⟨fighter_name, initiative_roll⟩])
          | none => .error .integerParseError
        | _ => .error .lineFormatError := rfl

theorem grab_lines_cons_two (line : String) (rest : List String)
    (acc : List Combatant) (nm istr : String) (hsp : splices line = [nm, istr]) :
    grab_lines (line :: rest) acc
      = match parse_i32 istr with
        | some v => grab_lines rest (acc ++ [⟨nm, v⟩])
        | none => .error .integerParseError := by
  rw [grab_lines_cons, hsp]

theorem record_combatant_spec_two (line nm istr : String)
    (hsp : splices line = [nm, istr]) :
    record_combatant_spec line = ⟨nm, (parse_i32 istr).getD 0⟩ := by
  unfold record_combatant_spec
  rw [hsp]

theorem read_ok_lines_all_some (pre : List (Option String))
    (h : ∀ x ∈ pre, Option.isSome x = true) (post : List (Option String)) :
    read_ok_lines (pre ++ none :: post) = read_ok_lines pre := by
  induction pre with
  | nil => rfl
  | cons hd tl ih =>
    obtain ⟨s, rfl⟩ := Option.isSome_iff_exists.mp (h hd (by simp))
    show s :: read_ok_lines (tl ++ none :: post) = s :: read_ok_lines tl
    rw [ih fun x hx => h x (by simp [hx])]

theorem grab_lines_valid_front (pre : List String) :
    ∀ (rest : List String) (acc : List Combatant),
      (∀ r ∈ pre, record_ok r = true) →
      grab_lines (pre ++ rest) acc
        = grab_lines rest (acc ++ pre.map record_combatant_spec) := by
  induction pre with
  | nil => intro rest acc _; simp
  | cons hd tl ih =>
    intro rest acc h
    have hhd : record_ok hd = true := h hd (by simp)
    unfold record_ok at hhd
    rcases hsp : splices hd with _ | ⟨a, _ | ⟨b, _ | _⟩⟩ <;> rw [hsp] at hhd <;>
      simp only [] at hhd
    · exact absurd hhd (by simp)
    · exact absurd hhd (by simp)
    case cons.cons.cons.cons => exact absurd hhd (by simp)
    · obtain ⟨v, hv⟩ := Option.isSome_iff_exists.mp hhd
      have hspec : record_combatant_spec hd = ⟨a, v⟩ := by
        rw [record_combatant_spec_two hd a b hsp, hv]
        rfl
      have hmem : ∀ r ∈ tl, record_ok r = true := by
        intro x hx
        exact h x (by simp [hx])
      rw [List.cons_append, grab_lines_cons_two hd (tl ++ rest) acc a b hsp, hv]
      show grab_lines (tl ++ rest) (acc ++ [Combatant.mk a v])
          = grab_lines rest (acc ++ List.map record_combatant_spec (hd :: tl))
      rw [ih rest (acc ++ [Combatant.mk a v]) hmem, List.map_cons, hspec]
      simp

/-! ## C3: failures of the roster source -/

/-- C3: the claim as stated is false on the code.  At this concrete source,
whose second line read fails, `grab_initiative` returns `Ok` with the
truncated one-combatant roster (the record after the failure is lost), and
`run` proceeds with it: no `RosterSourceError` (or any error) surfaces. -/
theorem c3_counterexample :
    grab_initiative (some [some "A, 1", none, some "B, 2"])
        = Except.ok [⟨"A", 1⟩]
  ∧ run_load (some [some "A, 1", none, some "B, 2"])
        = Except.ok [⟨"A", 1⟩] := by
  constructor
  · rfl
  · unfold run_load
    have h1 : grab_initiative (some [some "A, 1", none, some "B, 2"])
        = Except.ok [⟨"A", 1⟩] := rfl
    rw [h1]
    simp [sort_combatants]

/-- C3 (amended): when the source fails to open, `grab_initiative` returns
`Ok` with the empty roster rather than an error (the orchestrator's
empty-roster check then rejects it); when a line read fails partway
through, the loader silently behaves as if the file ended just before the
failed line, returning whatever the preceding lines produce — an `Ok` with
a truncated roster when they are well-formed. -/
theorem c3_theorem (pre post : List (Option String))
    (h : ∀ x ∈ pre, Option.isSome x = true) :
    grab_initiative none = Except.ok []
  ∧ grab_initiative (some (pre ++ none :: post)) = grab_initiative (some pre) := by
  refine ⟨rfl, ?_⟩
  show grab_lines (read_ok_lines (pre ++ none :: post)) []
      = grab_lines (read_ok_lines pre) []
  rw [read_ok_lines_all_some pre h post]

/-- Witness for C3: a read failure after one good line truncates the load
to that line. -/
theorem c3_witness :
    grab_initiative none = Except.ok []
  ∧ grab_initiative (some ([some "A, 1"] ++ none :: [some "B, 2"]))
      = grab_initiative (some [some "A, 1"]) :=
  c3_theorem [some "A, 1"] [some "B, 2"] (by decide)

/-! ## C7: the loader aborts on the first bad record -/

/-- C7: for every record sequence with a first invalid record (all records
before it valid), the loader returns the line-format error when that record
does not split into exactly two comma-space fields, and the integer-parse
error when it splits into two fields whose second does not parse as `i32`;
in both cases the result is an error, never a partial roster. -/
theorem c7_theorem (pre : List String) (bad : String) (rest : List String)
    (nm istr : String) (hpre : ∀ r ∈ pre, record_ok r = true) :
    ((splices bad).length ≠ 2 →
        grab_lines (pre ++ bad :: rest) []
          = Except.error LoadError.lineFormatError)
  ∧ (splices bad = [nm, istr] → parse_i32 istr = none →
        grab_lines (pre ++ bad :: rest) []
          = Except.error LoadError.integerParseError) := by
  have hfront := grab_lines_valid_front pre (bad :: rest) [] hpre
  constructor
  · intro hlen
    rw [hfront, grab_lines_cons]
    rcases hsp : splices bad with _ | ⟨a, _ | ⟨b, _ | _⟩⟩
    · rfl
    · rfl
    · exact absurd (by rw [hsp]; rfl) hlen
    · rfl
  · intro hsp hparse
    rw [hfront, grab_lines_cons_two bad rest ([] ++ List.map record_combatant_spec pre) nm istr hsp, hparse]

/-- Witness for C7: a record without the comma-space delimiter aborts the
load with the line-format error even with records pending after it, and a
non-numeric initiative aborts with the integer-parse error. -/
theorem c7_witness :
    grab_lines (["A, 1"] ++ "BadLine" :: ["B, 2"]) []
        = Except.error LoadError.lineFormatError
  ∧ grab_lines (["A, 1"] ++ "Frodo, abc" :: []) []
        = Except.error LoadError.integerParseError :=
  ⟨ ( c7_theorem ["A, 1"] "BadLine" ["B, 2"] "" "" (by decide)).1 (by decide),
   ( c7_theorem ["A, 1"] "Frodo, abc" [] "Frodo" "abc" (by decide)).2
     (by decide) (by decide)⟩

/-! ## C8: valid records load verbatim in file order -/

/-- C8: for every sequence of valid records (each splitting into exactly
two comma-space fields with an `i32` second field), the loader returns
combatants in file order, each with field one verbatim as the name and the
parsed value of field two as the initiative. -/
theorem c8_theorem (records : List String)
    (h : ∀ r ∈ records, record_ok r = true) :
    grab_lines records [] = Except.ok (records.map record_combatant_spec) := by
  have hfront := grab_lines_valid_front records [] [] h
  simpa [grab_lines_nil] using hfront

/-- Witness for C8: the three-record scenario from the spec loads in file
order with names and values preserved. -/
theorem c8_witness :
    grab_lines ["Aragorn, 15", "Legolas, 18", "Gimli, 12"] []
      = Except.ok [⟨"Aragorn", 15⟩, ⟨"Legolas", 18⟩, ⟨"Gimli", 12⟩] :=
  c8_theorem ["Aragorn, 15", "Legolas, 18", "Gimli, 12"] (by decide)

/-! ## Sort lemmas -/

theorem combatant_le_trans : ∀ (a b c : Combatant),
    decide (b.initiative ≤ a.initiative) = true →
    decide (c.initiative ≤ b.initiative) = true →
    decide (c.initiative ≤ a.initiative) = true := by
  intro a b c h1 h2
  simp only [decide_eq_true_eq] at h1 h2 ⊢
  omega

theorem combatant_le_total : ∀ (a b : Combatant),
    (decide (b.initiative ≤ a.initiative)
      || decide (a.initiative ≤ b.initiative)) = true := by
  intro a b
  simp only [Bool.or_eq_true, decide_eq_true_eq]
  omega

theorem sort_combatants_pairwise (l : List Combatant) :
    (sort_combatants l).Pairwise fun a b => b.initiative ≤ a.initiative := by
  have h := @List.sorted_mergeSort Combatant
      (fun a b => decide (b.initiative ≤ a.initiative))
      combatant_le_trans combatant_le_total l
  exact h.imp fun hab => by simpa using hab

theorem sort_combatants_stable (l : List Combatant) (v : Int) :
    (sort_combatants l).filter (fun c => c.initiative == v)
      = l.filter (fun c => c.initiative == v) := by
  have hmem : ∀ c ∈ l.filter (fun c => c.initiative == v),
      c.initiative = v := by
    intro c hc
    have := (List.mem_filter.mp hc).2
    simpa using this
  have hpair : (l.filter (fun c => c.initiative == v)).Pairwise
      (fun a b => decide (b.initiative ≤ a.initiative) = true) := by
    apply List.pairwise_of_forall_mem_list
    intro a ha b hb
    simp [hmem a ha, hmem b hb]
  have hsub : (l.filter (fun c => c.initiative == v)).Sublist
      (sort_combatants l) :=
    @List.sublist_mergeSort Combatant
      (fun a b => decide (b.initiative ≤ a.initiative)) l
      combatant_le_trans combatant_le_total _ hpair (List.filter_sublist l)
  have heq : (l.filter (fun c => c.initiative == v)).filter
      (fun c => c.initiative == v) = l.filter (fun c => c.initiative == v) := by
    apply List.filter_eq_self.mpr
    intro a ha
    exact (List.mem_filter.mp ha).2
  have hsub2 : (l.filter (fun c => c.initiative == v)).Sublist
      ((sort_combatants l).filter (fun c => c.initiative == v)) := by
    have h := List.Sublist.filter (fun c => c.initiative == v) hsub
    rwa [heq] at h
  have hlen : ((sort_combatants l).filter (fun c => c.initiative == v)).length
      = (l.filter (fun c => c.initiative == v)).length := by
    rw [← List.countP_eq_length_filter, ← List.countP_eq_length_filter]
    exact List.Perm.countP_eq _ (List.mergeSort_perm l _)
  exact (hsub2.eq_of_length hlen.symm).symm

/-! ## C9: every sort is descending and stable -/

/-- C9: the single sort routine shared by the orchestrator (`run`) and the
ViewOrder Confirm handler produces an order that is non-increasing by
initiative and stable — for every initiative value, the subsequence of
combatants carrying that value is exactly the one from before the sort,
in the same relative order.  The last two conjuncts pin both call sites to
that routine: ViewOrder's Confirm replaces the roster with its sorted
version, and the orchestrator sorts the loaded roster before combat. -/
theorem c9_theorem (l : List Combatant) (s : SetupState) (v : Int)
    (src : Option (List (Option String))) (cs : List Combatant)
    (hload : grab_initiative src = Except.ok cs) (hne : cs ≠ []) :
    (sort_combatants l).Pairwise (fun a b => b.initiative ≤ a.initiative)
  ∧ (sort_combatants l).filter (fun c => c.initiative == v)
      = l.filter (fun c => c.initiative == v)
  ∧ (view_initiative_order s).1.combatants = sort_combatants s.combatants
  ∧ run_load src = Except.ok (sort_combatants cs) := by
  refine ⟨sort_combatants_pairwise l, sort_combatants_stable l v, rfl, ?_⟩
  unfold run_load
  rw [hload]
  simp [hne]

/-- Witness for C9 on the spec's three-record scenario, with the equal
initiative value 15 probed for stability, and a one-line source for the
orchestrator path. -/
theorem c9_witness :
    (sort_combatants [⟨"Aragorn", 15⟩, ⟨"Legolas", 18⟩, ⟨"Gimli", 12⟩]).Pairwise
        (fun a b => b.initiative ≤ a.initiative)
  ∧ (sort_combatants [⟨"Aragorn", 15⟩, ⟨"Legolas", 18⟩, ⟨"Gimli", 12⟩]).filter
        (fun c => c.initiative == 15)
      = [(⟨"Aragorn", 15⟩ : Combatant), ⟨"Legolas", 18⟩, ⟨"Gimli", 12⟩].filter
        (fun c => c.initiative == 15)
  ∧ (view_initiative_order { combatants := [⟨"A", 1⟩], menu := .ViewOrder, selected := 0, max_size := 1, name_input := "", initiative_input := "", active_field := .Name }).1.combatants
      = sort_combatants [⟨"A", 1⟩]
  ∧ run_load (some [some "A, 1"]) = Except.ok (sort_combatants [⟨"A", 1⟩]) :=
  c9_theorem [⟨"Aragorn", 15⟩, ⟨"Legolas", 18⟩, ⟨"Gimli", 12⟩]
    { combatants := [⟨"A", 1⟩], menu := .ViewOrder, selected := 0, max_size := 1, name_input := "", initiative_input := "", active_field := .Name }
    15 (some [some "A, 1"]) [⟨"A", 1⟩] rfl (by decide)

end Rusist
